import Mathlib

/-!
Verification of the worker fleet manager in `src/client/slurmworkers.py`
(repository `ke0m/scaleup`).

The Python module is embedded shallowly:

* pure helpers (`format_mins`, `unformat_mins`, `get_squeue` parsing,
  `slurmworker.get_status`, `slurmworker.id_generator`) become Lean
  functions over `String`, `List` and `ℚ` (Python floats are idealized as
  rationals);
* fallible code becomes `Except PyErr _`, with one constructor per Python
  exception class that can be raised;
* effects (the `sbatch`/`squeue`/`scancel` CLIs, the file system, the
  random source) are passed in explicitly: CLI results and queue probes are
  parameters, the file system and scheduler queue form a `SysState`.
-/

/-- The Python exceptions that the embedded code can raise.
`exception` stands for a plain `raise Exception(...)`. -/
inductive PyErr where
  | exception
  | attributeError
  | nameError
  | indexError
  | valueError
deriving DecidableEq, Repr

/-! ## String helpers (Python `str` methods used by the source)

The source uses `line.split()` (split on whitespace runs, dropping empty
pieces), `s.split(":")` / `s.split("\n")` (split on a separator, keeping
empty pieces) and the substring test `wid in line`.  They are embedded as
executable functions over `List Char`. -/

/-- Worker for `pySplitSep`: split a character list at every occurrence of
`sep`, keeping empty pieces.  `cur` is the (reversed) piece under
construction. -/
def sepSplitGo (sep : Char) : List Char → List Char → List (List Char)
  | cur, [] => [cur.reverse]
  | cur, c :: rest =>
      if c = sep then cur.reverse :: sepSplitGo sep [] rest
      else sepSplitGo sep (c :: cur) rest

/-- Python `s.split(sep)` for a one-character separator: empty pieces are
kept, and `"".split(sep) == [""]`. -/
def pySplitSep (sep : Char) (s : String) : List String :=
  (sepSplitGo sep [] s.toList).map (fun l => ⟨l⟩)

/-- Worker for `pySplitWs`: split on whitespace, pieces in order. -/
def wsSplitGo : List Char → List Char → List (List Char)
  | cur, [] => [cur.reverse]
  | cur, c :: rest =>
      if c.isWhitespace then cur.reverse :: wsSplitGo [] rest
      else wsSplitGo (c :: cur) rest

/-- Python `s.split()` (no argument): split on whitespace runs and drop all
empty pieces. -/
def pySplitWs (s : String) : List String :=
  ((wsSplitGo [] s.toList).filter (fun l => l ≠ [])).map (fun l => ⟨l⟩)

/-- Worker for `pyContains`: does `n` occur as a prefix of `h`? -/
def startsWithList : List Char → List Char → Bool
  | [], _ => true
  | _ :: _, [] => false
  | a :: as, b :: bs => a = b && startsWithList as bs

/-- Worker for `pyContains`: does `n` occur as a contiguous sublist of `h`? -/
def hasSubList (n : List Char) : List Char → Bool
  | [] => startsWithList n []
  | c :: t => startsWithList n (c :: t) || hasSubList n t

/-- Python `needle in hay` on strings: substring containment. -/
def pyContains (needle hay : String) : Bool :=
  hasSubList needle.toList hay.toList

/-- Python `float(s)` on the plain decimal numerals that appear in the
elapsed-time column of `squeue` output and in formatted wall times
(`"30"`, `"5.5"`, `"05"`, ...).  `none` models a `ValueError`.  (The real
builtin also accepts signs, exponents and `inf`/`nan`, none of which occur
here.) -/
def pyFloat (s : String) : Option ℚ :=
  let digs (l : List Char) : Option ℕ :=
    if l ≠ [] ∧ l.all Char.isDigit then
      some (l.foldl (fun acc c => 10 * acc + (c.toNat - '0'.toNat)) 0)
    else none
  match pySplitSep '.' s with
  | [a] => (digs a.toList).map (fun n => (n : ℚ))
  | [a, b] =>
      match digs a.toList, digs b.toList with
      | some n, some m => some ((n : ℚ) + (m : ℚ) / (10 : ℚ) ^ b.length)
      | _, _ => none
  | _ => none

/-- `float(s)` as an `Except`: a non-numeral raises `ValueError`. -/
def floatE (s : String) : Except PyErr ℚ :=
  match pyFloat s with
  | some v => .ok v
  | none => .error .valueError

/-! ## Wall-time formatting (`format_mins` / `unformat_mins`)

`format_mins` builds `"%s:%s:%s" % (create_inttag(int(hors),10),
create_inttag(imins,10), create_inttag(secs,10))` from
`hors, mins = divmod(mins, 60)`, `imins = int(mins)`,
`secs = (mins - imins)*60`.

`create_inttag` is imported from `genutils.ptyprint`, which is not part of
this repository.  Modelled from the spec: "Wall-time formatting: minutes
(possibly fractional) map to HH:MM:SS. Parsing is the inverse" — so the tag
is some colon-free numeral rendering of the field value that `float`
parses back to the same value.  The rendering is taken as a parameter
`tag : ℚ → String`; the round-trip theorem assumes of it exactly this
inverse property at the three field values it is applied to. -/

/-- `hors` of `divmod(mins, 60)`: floor division. -/
def fmt_hours (m : ℚ) : ℚ := ((m / 60).floor : ℤ)

/-- `imins = int(mins)` where `mins = m % 60`; the remainder of Python
`divmod` is non-negative, so `int` truncation is the floor. -/
def fmt_imins (m : ℚ) : ℚ := ((m - 60 * fmt_hours m).floor : ℤ)

/-- `secs = (mins - imins) * 60`. -/
def fmt_secs (m : ℚ) : ℚ := ((m - 60 * fmt_hours m) - fmt_imins m) * 60

/-- `format_mins(mins)`: the `HH:MM:SS` string, with the numeral rendering
`tag` standing for the absent `create_inttag`. -/
def format_mins (tag : ℚ → String) (m : ℚ) : String :=
  tag (fmt_hours m) ++ ":" ++ tag (fmt_imins m) ++ ":" ++ tag (fmt_secs m)

/-- `unformat_mins(mins)`: split on `":"`; with one component the value is
seconds, with two it is minutes and seconds, with three it is hours,
minutes and seconds; the result is `float(hors)*60 + float(mins) +
float(secs)/60`.  With four or more components none of the branches binds
the names, and evaluating `float(hors)` raises `NameError`. -/
def unformat_mins (s : String) : Except PyErr ℚ :=
  match pySplitSep ':' s with
  | [c1] => do
      let sv ← floatE c1
      pure ((0 : ℚ) * 60 + (0 : ℚ) + sv / 60)
  | [c1, c2] => do
      let mv ← floatE c1
      let sv ← floatE c2
      pure ((0 : ℚ) * 60 + mv + sv / 60)
  | [c1, c2, c3] => do
      let hv ← floatE c1
      let mv ← floatE c2
      let sv ← floatE c3
      pure (hv * 60 + mv + sv / 60)
  | _ => .error .nameError

/-- A tag string that `":".split` treats as one component. -/
def colonFree (s : String) : Prop := ':' ∉ s.toList

instance colonFree_dec (s : String) : Decidable (colonFree s) :=
  inferInstanceAs (Decidable (':' ∉ s.toList))

deriving instance DecidableEq for Except

lemma sepSplitGo_append (sep : Char) (cur a r : List Char) (ha : sep ∉ a) :
    sepSplitGo sep cur (a ++ sep :: r) =
      (cur.reverse ++ a) :: sepSplitGo sep [] r := by
  induction a generalizing cur with
  | nil => simp [sepSplitGo]
  | cons x xs ih =>
      have hx : ¬(x = sep) := fun h => ha (h ▸ List.mem_cons_self x xs)
      have hxs : sep ∉ xs := fun h => ha (List.mem_cons_of_mem x h)
      rw [List.cons_append,
        show sepSplitGo sep cur (x :: (xs ++ sep :: r))
            = sepSplitGo sep (x :: cur) (xs ++ sep :: r) by
          simp [sepSplitGo, hx],
        ih (x :: cur) hxs]
      simp

lemma sepSplitGo_no_sep (sep : Char) (cur l : List Char) (hl : sep ∉ l) :
    sepSplitGo sep cur l = [cur.reverse ++ l] := by
  induction l generalizing cur with
  | nil => simp [sepSplitGo]
  | cons x xs ih =>
      have hx : ¬(x = sep) := fun h => hl (h ▸ List.mem_cons_self x xs)
      have hxs : sep ∉ xs := fun h => hl (List.mem_cons_of_mem x h)
      rw [show sepSplitGo sep cur (x :: xs)
            = sepSplitGo sep (x :: cur) xs by simp [sepSplitGo, hx],
        ih (x :: cur) hxs]
      simp

lemma string_toList_append (a b : String) :
    (a ++ b).toList = a.toList ++ b.toList := rfl

/-- Splitting `a ++ ":" ++ b ++ ":" ++ c` on `":"` recovers `[a, b, c]`
when the pieces are colon-free. -/
lemma pySplitSep_three (a b c : String)
    (hb : colonFree a) (hbb : colonFree b) (hc : colonFree c) :
    pySplitSep ':' (a ++ ":" ++ b ++ ":" ++ c) = [a, b, c] := by
  unfold pySplitSep
  have hlist : (a ++ ":" ++ b ++ ":" ++ c).toList
      = a.toList ++ ':' :: (b.toList ++ ':' :: c.toList) := by
    simp only [string_toList_append]
    simp [show (":" : String).toList = [':'] from rfl]
  rw [hlist, sepSplitGo_append ':' [] _ _ hb,
      sepSplitGo_append ':' [] _ _ hbb,
      sepSplitGo_no_sep ':' [] _ hc]
  simp

/-! ## The worker record (`class slurmworker`)

Fields mirror `slurmworker.__init__`.  The name-mangled private fields
`self.__rtime`, `self.__ncore`, `self.__mem`, `self.__wtime`,
`self.__queue` (stored on the instance as `_slurmworker__*`) appear as
`rtime`, `ncore_p`, `mem_p`, `wtime_p`, `queue_p`.  `meme_p` is the stray
attribute `_slurmworker__meme` that the typo `self.__meme = mem` in
`submit` creates; the intended `mem_p` is never written by `submit`. -/
structure Worker where
  workerid : String
  cmd : String := ""
  subid : Option String := none
  status : Option String := none
  nodename : Option String := none
  logpath : String := "."
  verb : Bool := false
  nsub : ℕ := 0
  outfile : Option String := none
  errfile : Option String := none
  name : String := "worker"
  user : String := ""
  rtime : ℚ := 0
  ncore_p : Option ℕ := none
  mem_p : Option ℕ := none
  wtime_p : Option ℚ := none
  queue_p : Option String := none
  meme_p : Option ℕ := none
deriving DecidableEq, Repr

/-- The outcome of one scheduler-CLI invocation handed to `submit`:
`subprocess.Popen` gives the child's exit code and captured stdout. -/
structure CliResult where
  exitCode : Int
  stdout : String
deriving DecidableEq, Repr

/-- `string.ascii_uppercase + string.digits`, the alphabet of
`slurmworker.id_generator`. -/
def id_chars : List Char := "ABCDEFGHIJKLMNOPQRSTUVWXYZ0123456789".toList

/-- `slurmworker.id_generator(size=6)`: six draws from `random.choice`.
The random source is the explicit stream `choice`; the `k`-th worker
created in a run consumes stream positions `6*k .. 6*k+5`. -/
def id_generator (choice : ℕ → Fin id_chars.length) (k : ℕ) : String :=
  ⟨(List.range 6).map (fun i => id_chars.get (choice (6 * k + i)))⟩

/-- `slurmworker.get_status(sqstring)` (with default `time=False`): scan
the probe rows for the first line containing `workerid`; on a hit take
`split[4]` as the state and `unformat_mins(split[5])` as the elapsed time
(an out-of-range index raises `IndexError`); on a miss reinterpret the
previous state: `'R'` becomes `'CG'`, `'TS'` stays, `None` raises, any
other previous state is returned unchanged.  Returns the updated record
together with the returned state string. -/
def get_status (w : Worker) (sq : List String) : Except PyErr (Worker × String) :=
  match sq.find? (fun line => pyContains w.workerid line) with
  | some line =>
      let tokens := pySplitWs line
      match tokens.get? 4 with
      | none => .error .indexError
      | some st =>
          match tokens.get? 5 with
          | none => .error .indexError
          | some el =>
              (unformat_mins el).map (fun r => ({ w with status := some st, rtime := r }, st))
  | none =>
      match w.status with
      | some "R" => .ok ({ w with status := some "CG" }, "CG")
      | some "TS" => .ok (w, "TS")
      | none => .error .exception
      | some st => .ok (w, st)

/-- Fold of `slurmworker.get_status` over a worker list (the comprehension
in `get_workers_status`). -/
def run_statuses : List Worker → List String → Except PyErr (List Worker × List String)
  | [], _ => .ok ([], [])
  | w :: ws, sq => do
      let (w', st) ← get_status w sq
      let (ws', sts) ← run_statuses ws sq
      pure (w' :: ws', st :: sts)

/-- `get_workers_status(workers)`: raises on an empty list, otherwise maps
`get_status` over the workers against one probe result `sq` (the rows that
`get_squeue()` returned). -/
def get_workers_status (workers : List Worker) (sq : List String) :
    Except PyErr (List Worker × List String) :=
  if workers.isEmpty then .error .exception
  else run_statuses workers sq

/-- `get_squeue()` applied to the raw stdout of the `squeue` CLI: split on
newlines; a single-piece result raises (`"Must start workers before
checking their status"`); otherwise `del info[0]; del info[-1]` drops the
header and the trailing piece. -/
def get_squeue (raw : String) : Except PyErr (List String) :=
  let info := pySplitSep '\n' raw
  if info.length = 1 then .error .exception
  else .ok ((info.drop 1).dropLast)

/-- `slurmworker.submit(ncore, mem, wtime, queue, sleep, restart)`.

Resolves the effective parameters (a `'TS'` state or `restart=True`
replaces each argument by the saved private parameter when that is not
`None`), builds the log-file names and the script name
`name + workerid + ".sh"`, and, after the `sbatch` invocation `sb`,
stores the last whitespace-separated token of stdout as `subid`
(`out.decode().split()[-1]`; an empty token list raises `IndexError`),
increments `nsub`, and saves the parameters — where the typo
`self.__meme = mem` writes the memory into the stray `meme_p` instead of
`mem_p`.  The exit code of `sb` is never inspected.  Returns the updated
record and the script file name that was written.  (The script body — a
fixed `#SBATCH` template around the resolved parameters, log paths and
`workerid` — is written to that file; its text is not needed by any claim
and is not modelled.) -/
def submit (w : Worker) (ncore : ℕ := 48) (mem : ℕ := 60) (wtime : ℚ := 30)
    (queue : String := "sep") (restart : Bool := false) (sb : CliResult) :
    Except PyErr (Worker × String) :=
  let outfile := w.logpath ++ "/" ++ w.name ++ w.workerid ++ "_out.log"
  let errfile := w.logpath ++ "/" ++ w.name ++ w.workerid ++ "_err.log"
  let p1 : ℕ × ℕ × ℚ × String :=
    if w.status = some "TS" then
      (w.ncore_p.getD ncore, w.mem_p.getD mem, w.wtime_p.getD wtime, w.queue_p.getD queue)
    else (ncore, mem, wtime, queue)
  let p2 : ℕ × ℕ × ℚ × String :=
    if restart then
      (w.ncore_p.getD p1.1, w.mem_p.getD p1.2.1, w.wtime_p.getD p1.2.2.1,
        w.queue_p.getD p1.2.2.2)
    else p1
  let script := w.name ++ w.workerid ++ ".sh"
  match (pySplitWs sb.stdout).getLast? with
  | none => .error .indexError
  | some tok =>
      .ok ({ w with
              outfile := some outfile
              errfile := some errfile
              subid := some tok
              nsub := w.nsub + 1
              ncore_p := some p2.1
              meme_p := some p2.2.1
              wtime_p := some p2.2.2.1
              queue_p := some p2.2.2.2 }, script)

/-- `slurmworker.delete()`: raises if the worker was never submitted,
otherwise runs `scancel <subid>`; the returned string is the submission id
passed to `scancel` (the cancel CLI itself is modelled as succeeding, per
the spec: cancel is "idempotent on already-gone jobs (warning, not
error)"). -/
def slurmworker_delete (w : Worker) : Except PyErr String :=
  match w.subid with
  | none => .error .exception
  | some sid => .ok sid

/-- Module-level attribute access `workers[iwrk].__rtime` in
`restart_workers`.  Python name mangling rewrites `self.__rtime` to
`_slurmworker__rtime` only inside `class slurmworker`; at module level the
lookup asks for an attribute literally named `__rtime`, which no
`slurmworker` instance has, so it raises `AttributeError`
unconditionally. -/
def getattr_dunder_rtime (_w : Worker) : Except PyErr ℚ :=
  .error .attributeError

/-- Module-level attribute access `workers[iwrk].__wtime` in
`restart_workers`; fails exactly like `getattr_dunder_rtime`. -/
def getattr_dunder_wtime (_w : Worker) : Except PyErr ℚ :=
  .error .attributeError

/-- The per-worker body of the loop in `restart_workers`: a worker whose
fresh state is `'R'` is, with `limit`, restarted when
`__rtime / __wtime >= perc` (the two attribute reads raise, see
`getattr_dunder_rtime`), and without `limit` unconditionally
(`delete()` then `submit(restart=True)` with the default arguments). -/
def restart_one (limit : Bool) (perc : ℚ) (sb : CliResult) (w : Worker)
    (st : String) : Except PyErr Worker :=
  if st = "R" then
    if limit then do
      let rt ← getattr_dunder_rtime w
      let wt ← getattr_dunder_wtime w
      if perc ≤ rt / wt then do
        let _ ← slurmworker_delete w
        (submit w 48 60 30 "sep" true sb).map Prod.fst
      else pure w
    else do
      let _ ← slurmworker_delete w
      (submit w 48 60 30 "sep" true sb).map Prod.fst
  else pure w

/-- The indexed loop of `restart_workers` over `zip workers status`. -/
def restart_fold (limit : Bool) (perc : ℚ) (sbatch : ℕ → CliResult) :
    ℕ → List (Worker × String) → Except PyErr (List Worker)
  | _, [] => .ok []
  | i, (w, st) :: rest => do
      let w' ← restart_one limit perc (sbatch i) w st
      let ws' ← restart_fold limit perc sbatch (i + 1) rest
      pure (w' :: ws')

/-- `restart_workers(workers, limit, perc)`: probe (`sqPre`), run the
restart loop (`sbatch i` is the submission CLI outcome for worker `i`),
then return a fresh probe of the statuses (`sqPost`). -/
def restart_workers (workers : List Worker) (sqPre sqPost : List String)
    (limit : Bool := true) (perc : ℚ := 3/4) (sbatch : ℕ → CliResult) :
    Except PyErr (List String) := do
  let (ws1, status) ← get_workers_status workers sqPre
  let ws2 ← restart_fold limit perc sbatch 0 (ws1.zip status)
  let (_, sts) ← get_workers_status ws2 sqPost
  pure sts

/-- `launch_tsworkers(workers)`: probe (`sqPre`); if at least two workers
are `'PD'` return that status; otherwise the loop resubmits each `'TS'`
worker — but its body reads the undefined module-level name `wrkrs`
(the parameter is `workers`), so the first `'TS'` worker raises
`NameError`; when no worker is `'TS'` the loop is a no-op and a fresh
probe (`sqPost`) is returned. -/
def launch_tsworkers (workers : List Worker) (sqPre sqPost : List String) :
    Except PyErr (List String) := do
  let (ws1, status) ← get_workers_status workers sqPre
  if 2 ≤ status.count "PD" then pure status
  else if status.contains "TS" then .error .nameError
  else do
    let (_, sts) ← get_workers_status ws1 sqPost
    pure sts

/-! ## Teardown (`kill_slurmworkers`) and its state model

The effects of teardown are on the file system and on the scheduler
queue.  Files are `(directory, filename)` pairs; the working directory is
`"."`.  `scancel` is modelled as removing the submission id from the
queue and succeeding (per the spec, cancel is idempotent on already-gone
jobs); `rm -f` never fails. -/
structure SysState where
  files : List (String × String)
  queue : List String
deriving DecidableEq, Repr

/-- The files removed for worker `w` by
`rm -f *<wid>* <logpath>/*<wid>*`: any file in the working directory or in
`w.logpath` whose name contains `w.workerid` — in particular the generated
script `<name><wid>.sh`, the node file `<wid>-node.txt` and the two log
files. -/
def rm_wid_files (w : Worker) (files : List (String × String)) :
    List (String × String) :=
  files.filter (fun f =>
    !((f.1 == "." || f.1 == w.logpath) && pyContains w.workerid f.2))

/-- The per-worker loop of `kill_slurmworkers` (with `clean=True`): skip
`'TS'` records entirely; otherwise remove the worker's files and cancel
its submission (`wrkr.delete()` raises when `subid is None`). -/
def kill_go : List Worker → SysState → Except PyErr SysState
  | [], s => .ok s
  | w :: ws, s =>
      if w.status = some "TS" then kill_go ws s
      else
        let s1 : SysState := { s with files := rm_wid_files w s.files }
        match slurmworker_delete w with
        | .error e => .error e
        | .ok sid => kill_go ws { s1 with queue := s1.queue.filter (fun j => !(j == sid)) }

/-- `kill_slurmworkers(workers, clean=True)` on a provided worker list:
raises on an empty list; runs the per-worker loop; finally removes
`squeue.out` from the working directory if it exists (modelled as an
unconditional filter, which is what `if os.path.exists: rm -f` amounts
to). -/
def kill_slurmworkers (workers : List Worker) (s : SysState) :
    Except PyErr SysState :=
  if workers.isEmpty then .error .exception
  else
    (kill_go workers s).map (fun s1 =>
      { s1 with files := s1.files.filter (fun f => !(f.1 == "." && f.2 == "squeue.out")) })

/-- The submission ids that teardown cancels: those of the non-`'TS'`
workers. -/
def cancelled_ids (workers : List Worker) : List String :=
  workers.filterMap (fun w => if w.status = some "TS" then none else w.subid)

/-- A file survives the per-worker loop iff no non-`'TS'` worker's
`rm -f` pattern matches it. -/
def keepFile (workers : List Worker) (f : String × String) : Bool :=
  workers.all (fun w =>
    decide (w.status = some "TS")
      || !((f.1 == "." || f.1 == w.logpath) && pyContains w.workerid f.2))

/-- A queue entry survives the per-worker loop iff it is cancelled by no
worker. -/
def keepJob (workers : List Worker) (j : String) : Bool :=
  workers.all (fun w =>
    decide (w.status = some "TS") || decide (¬w.subid = some j))

/-- The state teardown leaves behind: the per-worker filters plus the
`squeue.out` removal. -/
def kill_result (workers : List Worker) (s : SysState) : SysState :=
  { files := s.files.filter (fun f =>
      keepFile workers f && !(f.1 == "." && f.2 == "squeue.out"))
    queue := s.queue.filter (keepJob workers) }

/-! ## The confirm-running poll loop of `launch_slurmworkers` (quiet mode)

```
nchk = 20; ichk = 0
while(wrkstatus.count('R') < nworkers and ichk <= nchk):
  time.sleep(1); wrkstatus = get_workers_status(wrkrs); ichk += 1
```

`probe ichk` is the status list the `ichk`-th in-loop probe returns.  The
structural argument counts the loop checks still allowed: `k = 21 - ichk`,
so `k = 0` is exactly `ichk = 21`, where the guard `ichk <= 20` fails. -/
def chk_go (probe : ℕ → List String) (nworkers : ℕ) :
    ℕ → List String → ℕ → List String × ℕ
  | 0, st, ichk => (st, ichk)
  | k + 1, st, ichk =>
      if st.count "R" < nworkers then chk_go probe nworkers k (probe ichk) (ichk + 1)
      else (st, ichk)

/-- The whole `chkrnng` block: enter the loop with the status obtained
after submission and `ichk = 0`; returns the final status and the number
of in-loop polls performed. -/
def chkrnng_loop (probe : ℕ → List String) (nworkers : ℕ)
    (st0 : List String) : List String × ℕ :=
  chk_go probe nworkers 21 st0 0

/-- A concrete numeral rendering used to instantiate the round-trip
theorem: it is value-faithful on the three field values of
`format_mins` at `m = 90` minutes (`01:30:0`). -/
def tag90 (q : ℚ) : String :=
  if q = 1 then "01" else if q = 30 then "30" else "0"

/-- A concrete fleet for the teardown witness: one `'TS'` record and one
submitted running worker. -/
def killFleetEx : List Worker :=
  [{ workerid := "TTTTTT", status := some "TS" },
   { workerid := "AB12CD", subid := some "77", status := some "R",
     logpath := "logs" }]

/-- A concrete system state for the teardown witness. -/
def killStateEx : SysState :=
  { files := [(".", "workerAB12CD.sh"), (".", "AB12CD-node.txt"),
              ("logs", "workerAB12CD_out.log"), (".", "squeue.out"),
              (".", "keep.txt")]
    queue := ["77", "88"] }

/-! ## Claim theorems -/

/-- A probe line never contains a colon-free three-way... (helper for the
round trip): the algebraic identity behind `format_mins`/`unformat_mins`:
hours·60 + whole minutes + seconds/60 gives back the minutes, exactly. -/
lemma fmt_fields_recompose (m : ℚ) :
    fmt_hours m * 60 + fmt_imins m + fmt_secs m / 60 = m := by
  unfold fmt_secs
  field_simp
  ring

/-- C1: for every non-negative minutes value `m`, parsing the formatted
wall-time string yields `m` back — exactly, hence in particular to within
1/60 (`unformat_mins (format_mins m) = m`).  The absent `create_inttag`
(see `format_mins`) is any rendering `tag` that is colon-free and
`float`-faithful on the three field values of `m`. -/
theorem time_format_roundtrip (tag : ℚ → String) (m : ℚ) (hm : 0 ≤ m)
    (h1 : colonFree (tag (fmt_hours m)))
    (h2 : colonFree (tag (fmt_imins m)))
    (h3 : colonFree (tag (fmt_secs m)))
    (f1 : floatE (tag (fmt_hours m)) = .ok (fmt_hours m))
    (f2 : floatE (tag (fmt_imins m)) = .ok (fmt_imins m))
    (f3 : floatE (tag (fmt_secs m)) = .ok (fmt_secs m)) :
    unformat_mins (format_mins tag m) = .ok m := by
  unfold format_mins unformat_mins
  rw [pySplitSep_three _ _ _ h1 h2 h3]
  simp only [f1, f2, f3]
  simp only [bind, Except.bind, pure, Except.pure, fmt_fields_recompose]

/-- `Rat.floor` agrees with the `Int.floor` of the `FloorRing` instance
(used to evaluate `fmt_hours`/`fmt_imins` at concrete inputs). -/
lemma rat_floor_eq (q : ℚ) : q.floor = ⌊q⌋ :=
  (Rat.floor_def' q).trans Rat.floor_def.symm

/-- Witness for C1 at `m = 90` with the rendering `tag90`
(`format_mins tag90 90 = "01:30:0"`). -/
theorem time_format_roundtrip_witness :
    0 ≤ (90 : ℚ) ∧ unformat_mins (format_mins tag90 90) = .ok 90 := by
  have e1 : fmt_hours (90 : ℚ) = 1 := by
    unfold fmt_hours; rw [rat_floor_eq]; norm_num
  have e2 : fmt_imins (90 : ℚ) = 30 := by
    unfold fmt_imins; rw [e1, rat_floor_eq]; norm_num
  have e3 : fmt_secs (90 : ℚ) = 0 := by
    unfold fmt_secs; rw [e1, e2]; norm_num
  refine ⟨by norm_num, time_format_roundtrip tag90 90 (by norm_num) ?_ ?_ ?_ ?_ ?_ ?_⟩
  · rw [e1]; decide
  · rw [e2]; decide
  · rw [e3]; decide
  · rw [e1]; decide
  · rw [e2]; decide
  · rw [e3]; decide

/-- C5: when a worker's `workerid` appears in no probe line, `get_status`
reinterprets the previous state — `'R'` becomes `'CG'` (COMPLETING),
`'TS'` stays `'TS'`, and a previous `None` raises the fatal inconsistency
`Exception`; when a line matches, the state code (`split[4]`) and elapsed
time (`unformat_mins(split[5])`) are taken from that row. -/
theorem get_status_reinterprets (w : Worker) (sq : List String) :
    (sq.find? (fun line => pyContains w.workerid line) = none →
      (w.status = some "R" →
        get_status w sq = .ok ({ w with status := some "CG" }, "CG")) ∧
      (w.status = some "TS" → get_status w sq = .ok (w, "TS")) ∧
      (w.status = none → get_status w sq = .error .exception)) ∧
    (∀ line, sq.find? (fun line => pyContains w.workerid line) = some line →
      ∀ st el r, (pySplitWs line)[4]? = some st →
        (pySplitWs line)[5]? = some el → unformat_mins el = .ok r →
        get_status w sq = .ok ({ w with status := some st, rtime := r }, st)) := by
  constructor
  · intro hnone
    refine ⟨?_, ?_, ?_⟩ <;> intro hst <;> simp [get_status, hnone, hst]
  · intro line hline st el r h4 h5 hum
    simp [get_status, hline, h4, h5, hum, Except.map]

/-- Witness for C5: a worker last seen `'R'` that is absent from the probe
rows is reported `'CG'`. -/
theorem get_status_reinterprets_witness :
    get_status { workerid := "AB12CD", status := some "R" } ["77 sep other"] =
      .ok ({ workerid := "AB12CD", status := some "CG" }, "CG") :=
  ((get_status_reinterprets
      { workerid := "AB12CD", status := some "R" } ["77 sep other"]).1
    (by decide)).1 rfl

/-- C7 counterexample: queue output consisting of the header line and the
trailing newline but **no data rows** does *not* raise the probe error —
`get_squeue` returns the empty row list.  This refutes "fails with
`ProbeError` exactly when the output contains no data rows": the
`len(info) == 1` check only fires when the raw output contains no newline
at all. -/
theorem get_squeue_header_only_no_error :
    get_squeue "JOBID PARTITION NAME USER ST TIME NODES NODELIST\n" =
      .ok [] := by decide

/-- C7 as amended: `get_squeue` raises exactly when the raw output splits
into a single piece (no newline anywhere); otherwise it strips the first
piece (the header) and the last piece (the empty trailer left by the final
newline) and returns the rows in between — which is the empty list, not an
error, when only the header is present. -/
theorem get_squeue_spec (raw : String) :
    (∀ x, pySplitSep '\n' raw = [x] → get_squeue raw = .error .exception) ∧
    (∀ header rows trailer,
      pySplitSep '\n' raw = header :: rows ++ [trailer] →
      get_squeue raw = .ok rows) := by
  constructor
  · intro x hx
    simp [get_squeue, hx]
  · intro header rows trailer h
    simp [get_squeue, h]

/-- Witness for C7 (amended): a header plus one data row plus the trailing
newline yields exactly that data row. -/
theorem get_squeue_spec_witness :
    get_squeue "JOBID ST\n  77 sep worker R\n" = .ok ["  77 sep worker R"] :=
  (get_squeue_spec "JOBID ST\n  77 sep worker R\n").2
    "JOBID ST" ["  77 sep worker R"] "" (by decide)

/-- C10: `delete` on a never-submitted worker (`subid is None`) raises
instead of invoking `scancel`; with a non-null `subid` it cancels exactly
that submission id. -/
theorem delete_requires_submission (w : Worker) :
    (w.subid = none → slurmworker_delete w = .error .exception) ∧
    (∀ sid, w.subid = some sid → slurmworker_delete w = .ok sid) := by
  constructor
  · intro h; simp [slurmworker_delete, h]
  · intro sid h; simp [slurmworker_delete, h]

/-- Witness for C10: a fresh worker record (default `subid := none`)
cannot be deleted. -/
theorem delete_requires_submission_witness :
    slurmworker_delete { workerid := "AB12CD" } = .error .exception :=
  (delete_requires_submission { workerid := "AB12CD" }).1 rfl

/-- C6 counterexample: the submission CLI exits with status 1, yet
`submit` succeeds and stores `"555"` (the last whitespace token of
stdout) as the submission id — no `SubmissionError` (the exit status is
never examined; the source has no error handling around `sbatch` at
all). -/
theorem submit_nonzero_exit_no_error :
    (submit { workerid := "AB12CD" } 48 60 30 "sep" false
        ⟨1, "submission output 555"⟩).toOption.map (fun p => p.1.subid)
      = some (some "555") := by decide

/-- C6 as amended: `submit` writes the script `<name><workerid>.sh`,
invokes the submission CLI and sets `subid` to the last
whitespace-separated token of stdout, incrementing the submission count —
but it never inspects the CLI's exit status (the result is the same for
any exit code), and when stdout has no tokens the failure surfaces as an
uncaught `IndexError`, not as a `SubmissionError`. -/
theorem submit_spec (w : Worker) (n m : ℕ) (wt : ℚ) (q : String)
    (r : Bool) (e e' : Int) (out : String) :
    (submit w n m wt q r ⟨e, out⟩ = submit w n m wt q r ⟨e', out⟩) ∧
    (pySplitWs out = [] → submit w n m wt q r ⟨e, out⟩ = .error .indexError) ∧
    (∀ tok, (pySplitWs out).getLast? = some tok →
      (submit w n m wt q r ⟨e, out⟩).toOption.map
          (fun p => (p.1.subid, p.1.nsub, p.2))
        = some (some tok, w.nsub + 1, w.name ++ w.workerid ++ ".sh")) := by
  refine ⟨rfl, ?_, ?_⟩
  · intro h0
    simp [submit, h0]
  · intro tok hlast
    simp [submit, hlast, Except.toOption]

/-- Witness for C6 (amended): concrete successful submission. -/
theorem submit_spec_witness :
    (submit { workerid := "QQ" } 4 8 15 "sep" false ⟨0, "batch job 16"⟩).toOption.map
        (fun p => (p.1.subid, p.1.nsub, p.2))
      = some (some "16", 0 + 1, "worker" ++ "QQ" ++ ".sh") :=
  (submit_spec { workerid := "QQ" } 4 8 15 "sep" false 0 0
      "batch job 16").2.2 "16" (by decide)

/-- C2 (code bug): `restart_workers` with `limit=True` on a worker whose
probed state is `'R'` raises `AttributeError` before any wall-time
comparison: the module-level expressions `workers[i].__rtime` and
`workers[i].__wtime` are not name-mangled, so they miss the private
fields `_slurmworker__rtime`/`_slurmworker__wtime` that the class code
writes. -/
theorem restart_workers_attribute_error :
    restart_workers
      [{ workerid := "AB12CD", subid := some "77", status := some "PD" }]
      ["  77 sep workerAB12CD joe R 5:00 1 node1"] [] true (3 / 4)
      (fun _ => ⟨0, "1"⟩)
      = .error .attributeError := by decide

/-- C3 (code bug): with fewer than two `'PD'` workers and one `'TS'`
worker, the follow-up pass `launch_tsworkers` raises `NameError` instead
of resubmitting: the loop body references the undefined module-level name
`wrkrs` (the function's parameter is `workers`). -/
theorem launch_tsworkers_name_error :
    launch_tsworkers [{ workerid := "AB12CD", status := some "TS" }]
      ["header line"] [] = .error .nameError := by decide

/-- C8 counterexample: with one worker that never reports `'R'`, the
`chkrnng` loop performs **21** in-loop polls, not at most 20: the guard
`ichk <= nchk` with `nchk = 20` admits `ichk = 0, 1, ..., 20`, i.e. 21
loop bodies. -/
theorem chkrnng_loop_polls_21 :
    chkrnng_loop (fun _ => ["PD"]) 1 ["PD"] = (["PD"], 21) := by decide

/-- Bounds and stopping behaviour of the polling recursion, by induction
on the remaining loop budget `k` (invariant `k = 21 - ichk`). -/
lemma chk_go_spec (probe : ℕ → List String) (n : ℕ) :
    ∀ k st ichk,
      ichk ≤ (chk_go probe n k st ichk).2 ∧
      (chk_go probe n k st ichk).2 ≤ ichk + k ∧
      (n ≤ (chk_go probe n k st ichk).1.count "R" ∨
        (chk_go probe n k st ichk).2 = ichk + k) ∧
      ((chk_go probe n k st ichk).2 = ichk ∧ (chk_go probe n k st ichk).1 = st ∨
        ichk < (chk_go probe n k st ichk).2 ∧
          (chk_go probe n k st ichk).1 = probe ((chk_go probe n k st ichk).2 - 1)) := by
  intro k
  induction k with
  | zero => intro st ichk; simp [chk_go]
  | succ k ih =>
      intro st ichk
      by_cases hc : st.count "R" < n
      · obtain ⟨ha, hb, hcc, hd⟩ := ih (probe ichk) (ichk + 1)
        rw [show chk_go probe n (k + 1) st ichk
            = chk_go probe n k (probe ichk) (ichk + 1) from by simp [chk_go, hc]]
        refine ⟨by omega, by omega, ?_, ?_⟩
        · rcases hcc with h' | h'
          · exact Or.inl h'
          · exact Or.inr (by omega)
        · rcases hd with ⟨h1, h2⟩ | ⟨h1, h2⟩
          · refine Or.inr ⟨by omega, ?_⟩
            rw [h2, h1]
            simp
          · exact Or.inr ⟨by omega, h2⟩
      · rw [show chk_go probe n (k + 1) st ichk = (st, ichk) from by
          simp [chk_go, hc]]
        exact ⟨le_rfl, by omega, Or.inl (not_lt.mp hc), Or.inl ⟨rfl, rfl⟩⟩

/-- C8 as amended: after submission the quiet-mode launcher with
`chkrnng` polls the fleet status at most **21** times at 1-second
intervals (not 20: the loop guard is `ichk <= 20`), stops polling as soon
as every worker's state is `'R'` — in particular it polls zero times when
the initial status already shows all workers running — and returns
whatever status holds when polling ends (the initial status if it never
entered the loop, otherwise the last polled status). -/
theorem chkrnng_loop_spec (probe : ℕ → List String) (n : ℕ)
    (st0 : List String) :
    (chkrnng_loop probe n st0).2 ≤ 21 ∧
    (n ≤ (chkrnng_loop probe n st0).1.count "R" ∨
      (chkrnng_loop probe n st0).2 = 21) ∧
    (n ≤ st0.count "R" → chkrnng_loop probe n st0 = (st0, 0)) ∧
    ((chkrnng_loop probe n st0).2 = 0 ∧ (chkrnng_loop probe n st0).1 = st0 ∨
      0 < (chkrnng_loop probe n st0).2 ∧
        (chkrnng_loop probe n st0).1
          = probe ((chkrnng_loop probe n st0).2 - 1)) := by
  have h := chk_go_spec probe n 21 st0 0
  refine ⟨by simpa [chkrnng_loop] using h.2.1, ?_, ?_, ?_⟩
  · rcases h.2.2.1 with h' | h'
    · exact Or.inl (by simpa [chkrnng_loop] using h')
    · exact Or.inr (by simpa [chkrnng_loop] using h')
  · intro hall
    have hc : ¬(st0.count "R" < n) := not_lt.mpr hall
    simp [chkrnng_loop, chk_go, hc]
  · rcases h.2.2.2 with ⟨h1, h2⟩ | ⟨h1, h2⟩
    · exact Or.inl ⟨by simpa [chkrnng_loop] using h1, by simpa [chkrnng_loop] using h2⟩
    · exact Or.inr ⟨by simpa [chkrnng_loop] using h1, by simpa [chkrnng_loop] using h2⟩

/-- Witness for C8 (amended): a fleet of one already-running worker is
never polled in the loop. -/
theorem chkrnng_loop_spec_witness :
    chkrnng_loop (fun _ => ["R"]) 1 ["R"] = (["R"], 0) :=
  (chkrnng_loop_spec (fun _ => ["R"]) 1 ["R"]).2.2.1 (by decide)

/-- C9 counterexample: `id_generator` performs six independent
`random.choice` draws with no uniqueness check, so two workers created in
the same run can draw identical tags: under the random stream that always
yields index 0, worker 0 and worker 1 (distinct workers of one run) get
the same `local_id` (`"AAAAAA"`). -/
theorem local_id_collision :
    id_generator (fun _ => ⟨0, by decide⟩) 0
      = id_generator (fun _ => ⟨0, by decide⟩) 1 := by decide

/-- C9 as amended: every `local_id` is a six-character tag over uppercase
letters and digits, for every random stream and every worker index;
distinctness of the tags of distinct workers is *not* guaranteed (it only
holds with high probability). -/
theorem local_id_shape (choice : ℕ → Fin id_chars.length) (k : ℕ) :
    (id_generator choice k).length = 6 ∧
    ∀ c ∈ (id_generator choice k).toList, c ∈ id_chars := by
  constructor
  · rfl
  · intro c hc
    obtain ⟨i, _, rfl⟩ := List.mem_map.mp hc
    exact List.get_mem id_chars (choice (6 * k + i)).1 (choice (6 * k + i)).2

/-- The per-worker teardown loop computes the two filters of
`kill_result` (without the final `squeue.out` removal), provided every
non-`'TS'` worker has been submitted. -/
lemma kill_go_eq (ws : List Worker) (s : SysState)
    (hsub : ∀ w ∈ ws, w.status ≠ some "TS" → w.subid ≠ none) :
    kill_go ws s
      = .ok ⟨s.files.filter (keepFile ws), s.queue.filter (keepJob ws)⟩ := by
  induction ws generalizing s with
  | nil =>
      rw [show keepFile [] = fun _ => true from
            funext (fun f => by simp [keepFile]),
          show keepJob [] = fun _ => true from
            funext (fun j => by simp [keepJob])]
      simp [kill_go, List.filter_true]
  | cons w ws ih =>
      by_cases hTS : w.status = some "TS"
      · rw [show kill_go (w :: ws) s = kill_go ws s from by simp [kill_go, hTS]]
        rw [ih s (fun w' hw' h' => hsub w' (List.mem_cons_of_mem _ hw') h')]
        have hf : s.files.filter (keepFile ws)
            = s.files.filter (keepFile (w :: ws)) :=
          List.filter_congr (fun f _ => by
            simp [keepFile, List.all_cons, hTS])
        have hq : s.queue.filter (keepJob ws)
            = s.queue.filter (keepJob (w :: ws)) :=
          List.filter_congr (fun j _ => by
            simp [keepJob, List.all_cons, hTS])
        rw [hf, hq]
      · obtain ⟨sid, hsid⟩ :=
          Option.ne_none_iff_exists'.mp (hsub w (List.mem_cons_self w ws) hTS)
        rw [show kill_go (w :: ws) s
            = kill_go ws ⟨rm_wid_files w s.files,
                s.queue.filter (fun j => !(j == sid))⟩ from by
          simp [kill_go, hTS, slurmworker_delete, hsid]]
        rw [ih _ (fun w' hw' h' => hsub w' (List.mem_cons_of_mem _ hw') h')]
        have hf : (rm_wid_files w s.files).filter (keepFile ws)
            = s.files.filter (keepFile (w :: ws)) := by
          rw [rm_wid_files, List.filter_filter]
          refine List.filter_congr (fun f _ => ?_)
          simp only [keepFile, List.all_cons, hTS]
          simp [Bool.and_comm]
        have hq : (s.queue.filter (fun j => !(j == sid))).filter (keepJob ws)
            = s.queue.filter (keepJob (w :: ws)) := by
          rw [List.filter_filter]
          refine List.filter_congr (fun j _ => ?_)
          by_cases hj : j = sid
          · subst hj
            simp [keepJob, List.all_cons, hTS, hsid]
          · simp [keepJob, List.all_cons, hTS, hsid, Ne.symm hj, hj,
              Bool.and_comm]
        rw [hf, hq]

/-- Filtering twice with the same predicate is filtering once. -/
lemma filter_idem {α : Type} (p : α → Bool) (l : List α) :
    (l.filter p).filter p = l.filter p := by
  rw [List.filter_filter]
  exact List.filter_congr (fun a _ => by cases hp : p a <;> simp [hp])

/-- Teardown on a provided fleet computes `kill_result`. -/
lemma kill_slurmworkers_eq (workers : List Worker) (s : SysState)
    (hne : workers ≠ [])
    (hsub : ∀ w ∈ workers, w.status ≠ some "TS" → w.subid ≠ none) :
    kill_slurmworkers workers s = .ok (kill_result workers s) := by
  have hie : workers.isEmpty = false := by
    cases workers with
    | nil => exact absurd rfl hne
    | cons a l => rfl
  rw [kill_slurmworkers, hie]
  rw [if_neg (by simp)]
  rw [kill_go_eq workers s hsub]
  rw [show Except.map _ _ = _ from rfl]
  simp only [Except.map]
  rw [List.filter_filter]
  unfold kill_result
  rw [show (fun f => keepFile workers f
        && !(f.1 == "." && f.2 == "squeue.out"))
      = (fun f => !(f.1 == "." && f.2 == "squeue.out") && keepFile workers f)
    from funext (fun f => Bool.and_comm _ _)]

/-- `kill_result` is idempotent: all its components are filters with
fixed predicates. -/
lemma kill_result_idem (workers : List Worker) (s : SysState) :
    kill_result workers (kill_result workers s) = kill_result workers s := by
  unfold kill_result
  rw [filter_idem, filter_idem]

/-- C4: teardown on a non-empty fleet (every non-`'TS'` record submitted)
succeeds and leaves exactly `kill_result`: (1) the computation; (2)
running it a second time on the resulting state is a no-op (idempotence);
(3) every submitted worker's submission is cancelled; (4) no surviving
file in the working directory or in a worker's log path contains that
worker's `local_id`; (5) the cached probe file `squeue.out` is gone; (6)
nothing but the submitted workers' ids is cancelled — in particular
`'TS'` records are skipped. -/
theorem kill_slurmworkers_spec (workers : List Worker) (s : SysState)
    (hne : workers ≠ [])
    (hsub : ∀ w ∈ workers, w.status ≠ some "TS" → w.subid ≠ none) :
    kill_slurmworkers workers s = .ok (kill_result workers s) ∧
    kill_slurmworkers workers (kill_result workers s)
      = .ok (kill_result workers s) ∧
    (∀ w ∈ workers, w.status ≠ some "TS" → ∀ sid, w.subid = some sid →
      sid ∉ (kill_result workers s).queue) ∧
    (∀ w ∈ workers, w.status ≠ some "TS" →
      ∀ f ∈ (kill_result workers s).files,
        ¬((f.1 = "." ∨ f.1 = w.logpath) ∧ pyContains w.workerid f.2 = true)) ∧
    (".", "squeue.out") ∉ (kill_result workers s).files ∧
    (∀ j ∈ s.queue, j ∉ cancelled_ids workers →
      j ∈ (kill_result workers s).queue) := by
  refine ⟨kill_slurmworkers_eq workers s hne hsub, ?_, ?_, ?_, ?_, ?_⟩
  · rw [kill_slurmworkers_eq workers (kill_result workers s) hne hsub,
      kill_result_idem]
  · intro w hw hTS sid hsid hmem
    have hkeep := List.of_mem_filter hmem
    simp only [keepJob, List.all_eq_true] at hkeep
    have := hkeep w hw
    simp [hTS, hsid] at this
  · intro w hw hTS f hf hbad
    have hkeep := List.of_mem_filter hf
    rw [Bool.and_eq_true] at hkeep
    have hkf := hkeep.1
    simp only [keepFile, List.all_eq_true] at hkf
    have := hkf w hw
    rcases hbad with ⟨hd, hc⟩
    rcases hd with hd | hd <;>
      simp [hTS, hd, hc] at this
  · intro hmem
    have hkeep := List.of_mem_filter hmem
    simp at hkeep
  · intro j hj hnc
    refine List.mem_filter_of_mem hj ?_
    simp only [keepJob, List.all_eq_true]
    intro w hw
    by_cases hTS' : w.status = some "TS"
    · simp [hTS']
    · cases hsubid : w.subid with
      | none => simp [hTS', hsubid]
      | some sid =>
          by_cases hjs : sid = j
          · exact absurd (List.mem_filterMap.mpr
              ⟨w, hw, by simp [cancelled_ids, hTS', hsubid, hjs]⟩) hnc
          · simp [hsubid, hjs]

/-- Witness for C4: concrete teardown of `killFleetEx` from `killStateEx`,
including the idempotent second run. -/
theorem kill_slurmworkers_spec_witness :
    kill_slurmworkers killFleetEx killStateEx
      = .ok (kill_result killFleetEx killStateEx) ∧
    kill_slurmworkers killFleetEx (kill_result killFleetEx killStateEx)
      = .ok (kill_result killFleetEx killStateEx) :=
  ⟨(kill_slurmworkers_spec killFleetEx killStateEx (by decide) (by decide)).1,
   (kill_slurmworkers_spec killFleetEx killStateEx (by decide) (by decide)).2.1⟩
